import Mathlib

/-!
Verification development for the trust_vault repository (Go sources:
`storage` package, `service` package, `backend/path_wallet.go`).

Modelling conventions:
- Go byte strings (`[]byte`, and Go `string` values that are treated as raw
  bytes, such as mnemonics and base64 text) are `List Nat` with elements
  `< 256`.  Wallet names and derivation paths, which are only compared,
  measured and scanned character-wise, are Lean `String`.
- The Vault `logical.Storage` backend is a pure association list from wallet
  name to the stored `encryptedWallet` value; the JSON marshalling layer
  (`logical.StorageEntryJSON` / `json.Unmarshal`), which is a bijection on
  well-formed records, is modelled as the identity.
- `crypto/aes` + `crypto/cipher.NewGCM` (the Go standard library, external to
  this repository) are abstracted as an `AEAD` structure whose `seal`/`openA`
  correspond to `gcm.Seal`/`gcm.Open`; the random nonce drawn from
  `crypto/rand` is passed as an explicit argument.
- Go functions that mutate a heap record via `defer` (the secret-zeroing
  guards in `service.SignTransaction` / `service.GetAddress`) additionally
  return the final state of the retrieved record as an explicit component.
-/

/-! ### Bytes -/

def isBytes (l : List Nat) : Prop := ∀ b ∈ l, b < 256

instance (l : List Nat) : Decidable (isBytes l) := by
  unfold isBytes; infer_instance

/-! ### Base64 (Go `encoding/base64` StdEncoding, as used by
`StorageService.encrypt`/`decrypt` and the sign handler).  Characters are
modelled by their ASCII codes; `61` is `=`, `13`/`10` are CR/LF, which the Go
decoder skips. -/

def b64EncSext (n : Nat) : Nat :=
  if n < 26 then 65 + n
  else if n < 52 then 71 + n
  else if n < 62 then n - 4
  else if n = 62 then 43
  else 47

def b64DecSext (m : Nat) : Option Nat :=
  if 65 ≤ m ∧ m ≤ 90 then some (m - 65)
  else if 97 ≤ m ∧ m ≤ 122 then some (m - 71)
  else if 48 ≤ m ∧ m ≤ 57 then some (m + 4)
  else if m = 43 then some 62
  else if m = 47 then some 63
  else none

def b64Encode : List Nat → List Nat
  | [] => []
  | [b0] => [b64EncSext (b0 / 4), b64EncSext (b0 % 4 * 16), 61, 61]
  | [b0, b1] =>
      [b64EncSext (b0 / 4), b64EncSext (b0 % 4 * 16 + b1 / 16),
       b64EncSext (b1 % 16 * 4), 61]
  | b0 :: b1 :: b2 :: rest =>
      b64EncSext (b0 / 4) :: b64EncSext (b0 % 4 * 16 + b1 / 16) ::
      b64EncSext (b1 % 16 * 4 + b2 / 64) :: b64EncSext (b2 % 64) ::
      b64Encode rest

def b64DecodeGroups : List Nat → Option (List Nat)
  | [] => some []
  | m0 :: m1 :: m2 :: m3 :: rest =>
    match b64DecSext m0, b64DecSext m1 with
    | some a, some b =>
      if m2 = 61 then
        if m3 = 61 ∧ rest = [] then some [a * 4 + b / 16] else none
      else
        match b64DecSext m2 with
        | some c =>
          if m3 = 61 then
            if rest = [] then some [a * 4 + b / 16, b % 16 * 16 + c / 4]
            else none
          else
            match b64DecSext m3 with
            | some d =>
              match b64DecodeGroups rest with
              | some bs =>
                  some ((a * 4 + b / 16) :: (b % 16 * 16 + c / 4) ::
                        (c % 4 * 64 + d) :: bs)
              | none => none
            | none => none
        | none => none
    | _, _ => none
  | _ => none

def b64Decode (l : List Nat) : Option (List Nat) :=
  b64DecodeGroups (l.filter (fun m => m ≠ 13 && m ≠ 10))

/-! ### AES-GCM abstraction.

`crypto/aes` + `crypto/cipher.NewGCM` come from the Go standard library
(external to this repository).  `seal key nonce pt` stands for
`gcm.Seal(nil, nonce, pt, nil)` (ciphertext plus authentication tag) and
`openA key nonce ct` for `gcm.Open(nil, nonce, ct, nil)`, which returns
`none` when the authentication tag does not verify.  `GCMSpec` records the
AEAD correctness facts the roundtrip claims rely on. -/

structure AEAD where
  nonceSize : Nat
  sealA : List Nat → List Nat → List Nat → List Nat
  openA : List Nat → List Nat → List Nat → Option (List Nat)

structure GCMSpec (g : AEAD) : Prop where
  round : ∀ key nonce pt, nonce.length = g.nonceSize →
    g.openA key nonce (g.sealA key nonce pt) = some pt
  sealBytes : ∀ key nonce pt, isBytes pt → isBytes (g.sealA key nonce pt)

/-- A small concrete AEAD instance used to exercise the theorems on concrete
inputs: the tag is a one-byte checksum of plaintext, key and nonce.  It
satisfies `GCMSpec` and can reject tampered ciphertexts. -/

def toyGCM : AEAD where
  nonceSize := 12
  sealA := fun key nonce pt => pt ++ [(pt.sum + key.sum + nonce.sum) % 256]
  openA := fun key nonce ct =>
    if ct = [] then none
    else
      if ct.getLast? = some ((ct.dropLast.sum + key.sum + nonce.sum) % 256)
      then some ct.dropLast else none

/-! ### Storage data model (`storage` package).

`Wallet` is `storage.Wallet`; `EncryptedWallet` is the internal
`storage.encryptedWallet`.  The Go `Mnemonic string` field holds raw bytes
(it is converted with `[]byte(...)` / `string(...)` at the encryption
boundary), so it is modelled as `List Nat`; `CreatedAt time.Time` is an
abstract timestamp modelled as `Nat`. -/

structure Wallet where
  name : String
  coinType : Nat
  mnemonic : List Nat
  privateKey : List Nat
  publicKey : String
  address : String
  createdAt : Nat
deriving DecidableEq, Repr

structure EncryptedWallet where
  name : String
  coinType : Nat
  mnemonicEncrypted : List Nat
  privateKeyEncrypted : List Nat
  publicKey : String
  address : String
  createdAt : Nat
deriving DecidableEq, Repr

/-- Error values of the `storage` package.  The Go code wraps its sentinel
errors (`ErrWalletNotFound`, `ErrWalletExists`, `ErrEncryptionFailed`,
`ErrDecryptionFailed`) with `fmt.Errorf("...: %w", ...)`; `errors.Is`
identity is modelled by the constructor, the wrapping text by the `String`
argument.  `other` covers plain `errors.New` values that wrap no sentinel. -/

inductive StorageErr where
  | walletNotFound
  | walletExists
  | encryptionFailed (msg : String)
  | decryptionFailed (msg : String)
  | other (msg : String)
deriving DecidableEq, Repr

/-- The Vault `logical.Storage` view under the `wallets/` prefix: an
association list from wallet name to stored record, in persisted key order.
`logical.StorageEntryJSON`/`json.Unmarshal` round-trip exactly on the values
stored here, so the JSON layer is the identity. -/

def Backend := List (String × EncryptedWallet)
deriving DecidableEq, Repr

def backendGet (st : Backend) (name : String) : Option EncryptedWallet :=
  match st with
  | [] => none
  | (k, w) :: rest => if k = name then some w else backendGet rest name

def backendPut (st : Backend) (name : String) (v : EncryptedWallet) :
    Backend :=
  match st with
  | [] => [(name, v)]
  | (k, w) :: rest =>
      if k = name then (name, v) :: rest else (k, w) :: backendPut rest name v

def backendDelete (st : Backend) (name : String) : Backend :=
  match st with
  | [] => []
  | (k, w) :: rest =>
      if k = name then backendDelete rest name
      else (k, w) :: backendDelete rest name

/-- `ss.storage.List(ctx, "wallets/")`: the stored wallet names in persisted
key order. -/

def backendList (st : Backend) : List String :=
  match st with
  | [] => []
  | (k, _) :: rest => k :: backendList rest

/-! ### Storage operations (`storage` package). -/

/-- `aes.NewCipher(key)` succeeds exactly for 16/24/32-byte keys. -/

def aesKeySizeOk (key : List Nat) : Bool :=
  key.length = 16 || key.length = 24 || key.length = 32

/-- `StorageService.encrypt`: AES-GCM with the random `nonce` prefixed to the
ciphertext (`gcm.Seal(nonce, nonce, plaintext, nil)`), base64-encoded. -/

def StorageService.encrypt (g : AEAD) (key nonce pt : List Nat) :
    Except String (List Nat) :=
  if aesKeySizeOk key then .ok (b64Encode (nonce ++ g.sealA key nonce pt))
  else .error "crypto or aes or invalid key size"

/-- `StorageService.decrypt`: base64-decode, split off the nonce, and
`gcm.Open`; a buffer shorter than the nonce size fails with
"ciphertext too short". -/

def StorageService.decrypt (g : AEAD) (key : List Nat) (ct : List Nat) :
    Except String (List Nat) :=
  match b64Decode ct with
  | none => .error "illegal base64 data"
  | some data =>
    if aesKeySizeOk key then
      if data.length < g.nonceSize then .error "ciphertext too short"
      else
        match g.openA key (data.take g.nonceSize) (data.drop g.nonceSize) with
        | none => .error "cipher or message authentication failed"
        | some pt => .ok pt
    else .error "crypto or aes or invalid key size"

/-- `StorageService.encryptWallet`: encrypts mnemonic and private key; the
two fresh random nonces are explicit arguments. -/

def StorageService.encryptWallet (g : AEAD) (key : List Nat) (w : Wallet)
    (n1 n2 : List Nat) : Except StorageErr EncryptedWallet :=
  match StorageService.encrypt g key n1 w.mnemonic with
  | .error _ => .error (.encryptionFailed "failed to encrypt mnemonic")
  | .ok me =>
    match StorageService.encrypt g key n2 w.privateKey with
    | .error _ => .error (.encryptionFailed "failed to encrypt private key")
    | .ok pe =>
      .ok { name := w.name, coinType := w.coinType, mnemonicEncrypted := me,
            privateKeyEncrypted := pe, publicKey := w.publicKey,
            address := w.address, createdAt := w.createdAt }

/-- `StorageService.decryptWallet`. -/

def StorageService.decryptWallet (g : AEAD) (key : List Nat)
    (enc : EncryptedWallet) : Except StorageErr Wallet :=
  match StorageService.decrypt g key enc.mnemonicEncrypted with
  | .error _ => .error (.decryptionFailed "failed to decrypt mnemonic")
  | .ok mn =>
    match StorageService.decrypt g key enc.privateKeyEncrypted with
    | .error _ => .error (.decryptionFailed "failed to decrypt private key")
    | .ok pk =>
      .ok { name := enc.name, coinType := enc.coinType, mnemonic := mn,
            privateKey := pk, publicKey := enc.publicKey,
            address := enc.address, createdAt := enc.createdAt }

/-- `StorageService.StoreWallet`: existence check, encrypt, then a single
`storage.Put`.  Returns the result together with the backend state after the
call. -/

def StorageService.StoreWallet (g : AEAD) (key : List Nat) (st : Backend)
    (w : Wallet) (n1 n2 : List Nat) : Except StorageErr Unit × Backend :=
  match backendGet st w.name with
  | some _ => (.error .walletExists, st)
  | none =>
    match StorageService.encryptWallet g key w n1 n2 with
    | .error e => (.error e, st)
    | .ok enc => (.ok (), backendPut st w.name enc)

/-- `StorageService.GetWallet`: retrieve and decrypt both sensitive
fields. -/

def StorageService.GetWallet (g : AEAD) (key : List Nat) (st : Backend)
    (name : String) : Except StorageErr Wallet :=
  if name = "" then .error (.other "wallet name cannot be empty")
  else
    match backendGet st name with
    | none => .error .walletNotFound
    | some enc => StorageService.decryptWallet g key enc

/-- `StorageService.GetWalletMetadata`: returns the plaintext projection
without invoking decryption.  The `g`/`key` arguments are the
`StorageService` fields, which this method never uses. -/

def StorageService.GetWalletMetadata (g : AEAD) (key : List Nat)
    (st : Backend) (name : String) : Except StorageErr Wallet :=
  if name = "" then .error (.other "wallet name cannot be empty")
  else
    match backendGet st name with
    | none => .error .walletNotFound
    | some enc =>
      .ok { name := enc.name, coinType := enc.coinType, mnemonic := [],
            privateKey := [], publicKey := enc.publicKey,
            address := enc.address, createdAt := enc.createdAt }

/-- `StorageService.DeleteWallet`: existence check then delete. -/

def StorageService.DeleteWallet (st : Backend) (name : String) :
    Except StorageErr Unit × Backend :=
  if name = "" then (.error (.other "wallet name cannot be empty"), st)
  else
    match backendGet st name with
    | none => (.error .walletNotFound, st)
    | some _ => (.ok (), backendDelete st name)

/-- `StorageService.ListWallets`: pagination over the listed keys.  Go would
panic on the slice expression `keys[offset:end]` when `offset < 0` and the
early `offset >= total` return was not taken; that runtime panic is modelled
as an `other` error value (no modelled caller reaches it: the router
validates first). -/

def StorageService.ListWallets (st : Backend) (offset limit : Int) :
    Except StorageErr (List String) :=
  let keys := backendList st
  let total : Int := keys.length
  if offset ≥ total then .ok []
  else
    let stop := if limit ≤ 0 ∨ offset + limit > total then total
                else offset + limit
    if offset < 0 then
      .error (.other "runtime panic: slice bounds out of range")
    else .ok ((keys.take stop.toNat).drop offset.toNat)

/-! ### Signing Provider (`wallet` package).

The `wallet` package is a CGO wrapper over the external Trust Wallet Core
library; only its Go-visible interface (`TrustWalletCore` methods, the
`WalletKeys` shape and the sentinel errors) matters to the claims, so the
provider is a record of functions and the theorems quantify over it. -/

inductive WalletErr where
  | invalidMnemonic
  | invalidCoinType
  | keyGenerationFailed
  | signingFailed
  | addressDerivation
  | other (msg : String)
deriving DecidableEq, Repr

structure WalletKeys where
  mnemonic : List Nat
  privateKey : List Nat
  publicKey : List Nat
  address : String
deriving DecidableEq, Repr

structure TrustWalletCore where
  generateWallet : Nat → Except WalletErr WalletKeys
  importWallet : List Nat → Nat → Except WalletErr WalletKeys
  signTransaction : List Nat → Nat → List Nat → Except WalletErr (List Nat)
  deriveAddress : List Nat → Nat → String → Except WalletErr String

/-- `wallet.GetPublicKeyHex`: lowercase hex encoding of the public key
bytes. -/

def hexDigit (n : Nat) : Char :=
  if n < 10 then Char.ofNat (48 + n) else Char.ofNat (87 + n)

def GetPublicKeyHex (pk : List Nat) : String :=
  String.mk (pk.foldr (fun b acc => hexDigit (b / 16) :: hexDigit (b % 16) :: acc) [])

/-! ### Service layer (`service` package). -/

/-- Error values of the `service` package; `wrapped` stands for a
`fmt.Errorf` value that wraps none of the sentinel errors the router matches
on (so it reaches `handleError`'s default branch). -/

inductive SvcErr where
  | walletNotFound
  | walletExists
  | invalidCoinType
  | invalidMnemonic
  | invalidTxData
  | signingFailed
  | invalidWalletName
  | wrapped (msg : String)
deriving DecidableEq, Repr

/-- The generate-or-import step of `service.CreateWallet`, with the Go
`errors.Is` chains mapping provider errors to service errors. -/

def createOrImportKeys (tw : TrustWalletCore) (mnemonic : List Nat)
    (coinType : Nat) : Except SvcErr WalletKeys :=
  if mnemonic ≠ [] then
    match tw.importWallet mnemonic coinType with
    | .error .invalidMnemonic => .error .invalidMnemonic
    | .error .invalidCoinType => .error .invalidCoinType
    | .error _ => .error (.wrapped "failed to import wallet")
    | .ok keys => .ok keys
  else
    match tw.generateWallet coinType with
    | .error .invalidCoinType => .error .invalidCoinType
    | .error _ => .error (.wrapped "failed to generate wallet")
    | .ok keys => .ok keys

/-- `service.CreateWallet`: generate/import keys, build the record, store it,
and return the projection without the sensitive fields (the Go code builds a
fresh `storage.Wallet` carrying only name, coin type, public key, address and
creation time).  `now` is the `time.Now().UTC()` value, `n1`/`n2` the random
nonces drawn inside `StoreWallet`'s encryption. -/

def mkServiceWallet (name : String) (coinType : Nat) (keys : WalletKeys)
    (now : Nat) : Wallet :=
  { name := name, coinType := coinType, mnemonic := keys.mnemonic,
    privateKey := keys.privateKey,
    publicKey := GetPublicKeyHex keys.publicKey,
    address := keys.address, createdAt := now }

def WalletService.CreateWallet (tw : TrustWalletCore) (g : AEAD)
    (key : List Nat) (st : Backend) (name : String) (coinType : Nat)
    (mnemonic : List Nat) (n1 n2 : List Nat) (now : Nat) :
    Except SvcErr Wallet × Backend :=
  if name = "" then (.error .invalidWalletName, st)
  else
    match createOrImportKeys tw mnemonic coinType with
    | .error e => (.error e, st)
    | .ok keys =>
      let walletObj : Wallet := mkServiceWallet name coinType keys now
      match StorageService.StoreWallet g key st walletObj n1 n2 with
      | (.error .walletExists, st') => (.error .walletExists, st')
      | (.error _, st') => (.error (.wrapped "failed to store wallet"), st')
      | (.ok _, st') =>
        (.ok { name := walletObj.name, coinType := walletObj.coinType,
               mnemonic := [], privateKey := [],
               publicKey := walletObj.publicKey,
               address := walletObj.address,
               createdAt := walletObj.createdAt }, st')

/-- `service.GetWallet`: metadata-only read, never decrypts. -/

def WalletService.GetWallet (g : AEAD) (key : List Nat) (st : Backend)
    (name : String) : Except SvcErr Wallet :=
  if name = "" then .error .invalidWalletName
  else
    match StorageService.GetWalletMetadata g key st name with
    | .error .walletNotFound => .error .walletNotFound
    | .error _ => .error (.wrapped "failed to retrieve wallet")
    | .ok w => .ok w

/-- `service.DeleteWallet`. -/

def WalletService.DeleteWallet (st : Backend) (name : String) :
    Except SvcErr Unit × Backend :=
  if name = "" then (.error .invalidWalletName, st)
  else
    match StorageService.DeleteWallet st name with
    | (.error .walletNotFound, st') => (.error .walletNotFound, st')
    | (.error _, st') => (.error (.wrapped "failed to delete wallet"), st')
    | (.ok _, st') => (.ok (), st')

/-- `service.ListWallets`: no validation of its own, delegates to the
store. -/

def WalletService.ListWallets (st : Backend) (offset limit : Int) :
    Except SvcErr (List String) :=
  match StorageService.ListWallets st offset limit with
  | .error _ => .error (.wrapped "failed to list wallets")
  | .ok ks => .ok ks

/-- `service.SignTransaction`.  The second component is the state of the
retrieved wallet record when the call returns: the Go `defer` zeroes every
private-key byte and clears the mnemonic on every exit path that follows a
successful retrieval (it is `none` when no record was retrieved).  The
signature is computed from the record as retrieved, before the deferred
cleanup runs. -/

def WalletService.SignTransaction (tw : TrustWalletCore) (g : AEAD)
    (key : List Nat) (st : Backend) (name : String) (txData : List Nat) :
    Except SvcErr (List Nat) × Option Wallet :=
  if name = "" then (.error .invalidWalletName, none)
  else if txData.length = 0 then (.error .invalidTxData, none)
  else
    match StorageService.GetWallet g key st name with
    | .error .walletNotFound => (.error .walletNotFound, none)
    | .error _ => (.error (.wrapped "failed to retrieve wallet"), none)
    | .ok walletObj =>
      let cleared : Wallet :=
        { walletObj with
          privateKey := walletObj.privateKey.map (fun _ => 0),
          mnemonic := [] }
      match tw.signTransaction walletObj.privateKey walletObj.coinType
          txData with
      | .error .signingFailed => (.error .signingFailed, some cleared)
      | .error .invalidCoinType => (.error .invalidCoinType, some cleared)
      | .error _ =>
          (.error (.wrapped "failed to sign transaction"), some cleared)
      | .ok signature => (.ok signature, some cleared)

/-- `service.GetAddress`.  As in `SignTransaction`, the second component is
the retrieved record after the deferred cleanup. -/

def WalletService.GetAddress (tw : TrustWalletCore) (g : AEAD)
    (key : List Nat) (st : Backend) (name : String) (coinType : Nat)
    (derivationPath : String) : Except SvcErr String × Option Wallet :=
  if name = "" then (.error .invalidWalletName, none)
  else
    match StorageService.GetWallet g key st name with
    | .error .walletNotFound => (.error .walletNotFound, none)
    | .error _ => (.error (.wrapped "failed to retrieve wallet"), none)
    | .ok walletObj =>
      let cleared : Wallet :=
        { walletObj with
          mnemonic := [],
          privateKey := walletObj.privateKey.map (fun _ => 0) }
      match tw.deriveAddress walletObj.mnemonic coinType derivationPath with
      | .error .invalidCoinType => (.error .invalidCoinType, some cleared)
      | .error .addressDerivation =>
          (.error (.wrapped "address derivation failed"), some cleared)
      | .error _ =>
          (.error (.wrapped "failed to derive address"), some cleared)
      | .ok address => (.ok address, some cleared)

/-! ### Request router (`backend/path_wallet.go`).

Responses are `logical.Response.Data` maps, modelled as key/value lists in
insertion order.  `logical.ErrorResponse(msg)` yields the single entry
`error ↦ msg`; a handler returning `(nil, err)` (the default branch of
`handleError`) surfaces as a Vault internal error carrying no data fields,
modelled by `internalErr`. -/

inductive RespValue where
  | vStr (s : String)
  | vNat (n : Nat)
  | vBool (b : Bool)
  | vList (l : List String)
deriving DecidableEq, Repr

inductive HandlerResult where
  | resp (data : List (String × RespValue))
  | internalErr (msg : String)
deriving DecidableEq, Repr

def errorResponse (msg : String) : List (String × RespValue) :=
  [("error", .vStr msg)]

/-- `TrustVaultBackend.handleError`: maps service errors to responses; the
default branch returns the wrapped error to Vault (internal error). -/

def handleError (e : SvcErr) : HandlerResult :=
  match e with
  | .walletNotFound =>
      .resp (errorResponse "wallet not found" ++
             [("http_status_code", .vNat 404)])
  | .walletExists =>
      .resp (errorResponse "wallet already exists" ++
             [("http_status_code", .vNat 409)])
  | .invalidCoinType => .resp (errorResponse "invalid coin type")
  | .invalidMnemonic => .resp (errorResponse "invalid mnemonic phrase")
  | .invalidTxData => .resp (errorResponse "invalid transaction data")
  | .signingFailed => .resp (errorResponse "transaction signing failed")
  | .invalidWalletName => .resp (errorResponse "invalid wallet name")
  | .wrapped msg => .internalErr msg

/-- `validateWalletName`.  Go measures `len(name)` in bytes and scans runes;
the names the claims touch are ASCII, where characters and bytes agree. -/

def hasDotDot : List Char → Bool
  | [] => false
  | c1 :: rest =>
    match rest with
    | [] => false
    | c2 :: _ => (c1 = '.' && c2 = '.') || hasDotDot rest

def validateWalletName (name : String) : Except String Unit :=
  if name.data = [] then .error "wallet name is required"
  else if name.data.length > 255 then
    .error "wallet name exceeds maximum length of 255 characters"
  else if hasDotDot name.data || name.data.contains '/' ||
      name.data.contains '\\' then
    .error "wallet name contains invalid characters"
  else if name.data.any (fun r => r.toNat < 32 || r.toNat = 127) then
    .error "wallet name contains invalid control characters"
  else .ok ()

/-- `validateCoinType`: whitelist Bitcoin (0), Ethereum (60), Solana
(501). -/

def validateCoinType (coinType : Nat) : Except String Unit :=
  if coinType = 0 || coinType = 60 || coinType = 501 then .ok ()
  else .error ("unsupported coin type: " ++ toString coinType)

/-- `validateDerivationPath`: length cap, `m/` root marker, restricted
character set (digits, `/`, apostrophe (39), `m` (109)). -/

def validateDerivationPath (path : String) : Except String Unit :=
  if path.data = [] then .ok ()
  else if path.data.length > 100 then
    .error "derivation path exceeds maximum length of 100 characters"
  else if !(match path.data with
            | 'm' :: '/' :: _ => true
            | _ => false) then
    .error "derivation path must start with m/"
  else if path.data.any (fun r =>
      !((48 ≤ r.toNat && r.toNat ≤ 57) || r.toNat = 47 || r.toNat = 39 ||
        r.toNat = 109)) then
    .error "derivation path contains invalid character"
  else .ok ()

/-- `fmt.Sscanf(coinStr, "%d", &coinType)` into a `uint32` (decimal digits
only; overflow fails). -/

def parseUint32 (s : String) : Option Nat :=
  if s.data ≠ [] && s.data.all (fun c => c.isDigit) then
    let v := s.data.foldl (fun acc c => acc * 10 + (c.toNat - 48)) 0
    if v < 4294967296 then some v else none
  else none

/-- `handleWalletCreate`.  The `coin_type` field arrives as a Go `int`
(absent ↦ `none`) and is converted with `uint32(...)`, i.e. reduced modulo
2^32; `mnemonic` defaults to empty. -/

def handleWalletCreate (tw : TrustWalletCore) (g : AEAD) (key : List Nat)
    (st : Backend) (name : String) (coinTypeRaw : Option Int)
    (mnemonic : List Nat) (n1 n2 : List Nat) (now : Nat) :
    HandlerResult × Backend :=
  match validateWalletName name with
  | .error msg => (.resp (errorResponse msg), st)
  | .ok _ =>
    match coinTypeRaw with
    | none => (.resp (errorResponse "coin_type is required"), st)
    | some raw =>
      let coinType : Nat := (raw % 4294967296).toNat
      match validateCoinType coinType with
      | .error msg => (.resp (errorResponse msg), st)
      | .ok _ =>
        match WalletService.CreateWallet tw g key st name coinType mnemonic
            n1 n2 now with
        | (.error e, st') => (handleError e, st')
        | (.ok w, st') =>
          (.resp [("name", .vStr w.name), ("coin_type", .vNat w.coinType),
                  ("address", .vStr w.address),
                  ("public_key", .vStr w.publicKey),
                  ("created_at", .vStr (toString w.createdAt))], st')

/-- `handleWalletRead`. -/

def handleWalletRead (g : AEAD) (key : List Nat) (st : Backend)
    (name : String) : HandlerResult :=
  match validateWalletName name with
  | .error msg => .resp (errorResponse msg)
  | .ok _ =>
    match WalletService.GetWallet g key st name with
    | .error e => handleError e
    | .ok w =>
      .resp [("name", .vStr w.name), ("coin_type", .vNat w.coinType),
             ("address", .vStr w.address),
             ("public_key", .vStr w.publicKey),
             ("created_at", .vStr (toString w.createdAt))]

/-- `handleWalletDelete`. -/

def handleWalletDelete (st : Backend) (name : String) :
    HandlerResult × Backend :=
  match validateWalletName name with
  | .error msg => (.resp (errorResponse msg), st)
  | .ok _ =>
    match WalletService.DeleteWallet st name with
    | (.error e, st') => (handleError e, st')
    | (.ok _, st') => (.resp [("deleted", .vBool true)], st')

/-- `handleWalletList`: the router (not the service) validates that offset
and limit are non-negative; `logical.ListResponse` carries the names under
the `keys` field. -/

def handleWalletList (st : Backend) (offset limit : Int) : HandlerResult :=
  if offset < 0 then .resp (errorResponse "offset must be non-negative")
  else if limit < 0 then .resp (errorResponse "limit must be non-negative")
  else
    match WalletService.ListWallets st offset limit with
    | .error e => handleError e
    | .ok ks => .resp [("keys", .vList ks)]

/-- `handleWalletSign`: name validation, required/size/base64/nonempty
checks on `tx_data` (the 1MB cap applies to the base64-encoded string,
before decoding), then delegation. -/

def handleWalletSign (tw : TrustWalletCore) (g : AEAD) (key : List Nat)
    (st : Backend) (name : String) (txDataEncoded : List Nat) :
    HandlerResult :=
  match validateWalletName name with
  | .error msg => .resp (errorResponse msg)
  | .ok _ =>
    if txDataEncoded = [] then .resp (errorResponse "tx_data is required")
    else if txDataEncoded.length > 1024 * 1024 then
      .resp (errorResponse "transaction data exceeds maximum size of 1MB")
    else
      match b64Decode txDataEncoded with
      | none => .resp (errorResponse "invalid tx_data: must be base64-encoded")
      | some txData =>
        if txData.length = 0 then
          .resp (errorResponse "transaction data cannot be empty")
        else
          match (WalletService.SignTransaction tw g key st name txData).1 with
          | .error e => handleError e
          | .ok signature =>
              .resp [("signed_tx", .vStr (String.mk
                ((b64Encode signature).map Char.ofNat)))]

/-- `handleWalletAddress`. -/

def handleWalletAddress (tw : TrustWalletCore) (g : AEAD) (key : List Nat)
    (st : Backend) (name : String) (coinStr : String)
    (derivationPath : String) : HandlerResult :=
  match validateWalletName name with
  | .error msg => .resp (errorResponse msg)
  | .ok _ =>
    if coinStr.data = [] then .resp (errorResponse "coin type is required")
    else
      match parseUint32 coinStr with
      | none => .resp (errorResponse "invalid coin type: must be a number")
      | some coinType =>
        match validateCoinType coinType with
        | .error msg => .resp (errorResponse msg)
        | .ok _ =>
          match (if derivationPath.data ≠ [] then
                   validateDerivationPath derivationPath
                 else .ok ()) with
          | .error msg => .resp (errorResponse msg)
          | .ok _ =>
            match (WalletService.GetAddress tw g key st name coinType
                derivationPath).1 with
            | .error e => handleError e
            | .ok address =>
                .resp [("address", .vStr address),
                       ("coin_type", .vNat coinType)]

/-! ### Concrete fixtures used to exercise the theorems. -/

deriving instance DecidableEq for Except

def exKey : List Nat := List.replicate 32 0

def exNonce : List Nat := List.replicate 12 0

def exEncWallet : EncryptedWallet :=
  { name := "w", coinType := 60,
    mnemonicEncrypted := b64Encode (exNonce ++ toyGCM.sealA exKey exNonce [1]),
    privateKeyEncrypted :=
      b64Encode (exNonce ++ toyGCM.sealA exKey exNonce [7, 7]),
    publicKey := "02ab", address := "0xabc", createdAt := 5 }

def exStore : Backend := [("w", exEncWallet)]

def exTW : TrustWalletCore :=
  { generateWallet := fun _ =>
      .ok { mnemonic := [1, 2], privateKey := [9], publicKey := [3],
            address := "addr1" }
    importWallet := fun mn _ =>
      .ok { mnemonic := mn, privateKey := [9], publicKey := [3],
            address := "addr2" }
    signTransaction := fun _ _ _ => .ok [1]
    deriveAddress := fun _ _ _ => .ok "addr3" }

/-- Agreement on everything except the two encrypted blobs (and the
encryption key, which is a separate argument). -/

def metaAgree (e1 e2 : EncryptedWallet) : Bool :=
  e1.name = e2.name && e1.coinType = e2.coinType &&
  e1.publicKey = e2.publicKey && e1.address = e2.address &&
  e1.createdAt = e2.createdAt

def backendAgree : Backend → Backend → Bool
  | [], [] => true
  | (k1, e1) :: r1, (k2, e2) :: r2 =>
      k1 = k2 && metaAgree e1 e2 && backendAgree r1 r2
  | _, _ => false

/-- The data keys of a handler result (a Vault internal error carries no
data fields). -/

def respKeys : HandlerResult → List String
  | .resp d => d.map Prod.fst
  | .internalErr _ => []

def respNoSensitive (r : HandlerResult) : Bool :=
  (respKeys r).all (fun k => k ≠ "mnemonic" && k ≠ "private_key")

/-- The only data-key shapes a create response can take: a bare error, an
error with a status code, or exactly the five projection fields. -/

def createRespShape (r : HandlerResult) : Bool :=
  match r with
  | .internalErr _ => true
  | .resp d =>
      decide (d.map Prod.fst = ["error"]) ||
      decide (d.map Prod.fst = ["error", "http_status_code"]) ||
      decide (d.map Prod.fst =
        ["name", "coin_type", "address", "public_key", "created_at"])

def exWallet : Wallet :=
  { name := "w", coinType := 60, mnemonic := [1], privateKey := [7, 7],
    publicKey := "02ab", address := "0xabc", createdAt := 5 }

def exEncWallet2 : EncryptedWallet :=
  { exEncWallet with mnemonicEncrypted := [0], privateKeyEncrypted := [1] }

def exStore2 : Backend := [("w", exEncWallet2)]

def exStore3 : Backend :=
  [("a", exEncWallet), ("b", exEncWallet), ("c", exEncWallet)]

theorem decSext_encSext (n : Nat) (h : n < 64) :
    b64DecSext (b64EncSext n) = some n := by
  unfold b64EncSext b64DecSext
  split_ifs <;>
    first
      | (simp only [Option.some.injEq]; omega)
      | rfl
      | (exfalso; omega)

theorem encSext_ne_pad (n : Nat) (h : n < 64) : b64EncSext n ≠ 61 := by
  unfold b64EncSext; split_ifs <;> omega

theorem encSext_ne_cr (n : Nat) (h : n < 64) : b64EncSext n ≠ 13 := by
  unfold b64EncSext; split_ifs <;> omega

theorem encSext_ne_lf (n : Nat) (h : n < 64) : b64EncSext n ≠ 10 := by
  unfold b64EncSext; split_ifs <;> omega

theorem b64Encode_not_crlf (x : List Nat) (hx : isBytes x) :
    ∀ a ∈ b64Encode x, a ≠ 13 ∧ a ≠ 10 := by
  induction x using b64Encode.induct with
  | case1 => simp [b64Encode]
  | case2 b0 =>
      have h0 : b0 < 256 := hx b0 (by simp)
      have e1 := encSext_ne_cr (b0 / 4) (by omega)
      have e2 := encSext_ne_lf (b0 / 4) (by omega)
      have e3 := encSext_ne_cr (b0 % 4 * 16) (by omega)
      have e4 := encSext_ne_lf (b0 % 4 * 16) (by omega)
      intro a ha
      simp only [b64Encode, List.mem_cons, List.not_mem_nil, or_false] at ha
      rcases ha with rfl | rfl | rfl | rfl <;> omega
  | case3 b0 b1 =>
      have h0 : b0 < 256 := hx b0 (by simp)
      have h1 : b1 < 256 := hx b1 (by simp)
      have e1 := encSext_ne_cr (b0 / 4) (by omega)
      have e2 := encSext_ne_lf (b0 / 4) (by omega)
      have e3 := encSext_ne_cr (b0 % 4 * 16 + b1 / 16) (by omega)
      have e4 := encSext_ne_lf (b0 % 4 * 16 + b1 / 16) (by omega)
      have e5 := encSext_ne_cr (b1 % 16 * 4) (by omega)
      have e6 := encSext_ne_lf (b1 % 16 * 4) (by omega)
      intro a ha
      simp only [b64Encode, List.mem_cons, List.not_mem_nil, or_false] at ha
      rcases ha with rfl | rfl | rfl | rfl <;> omega
  | case4 b0 b1 b2 rest ih =>
      have h0 : b0 < 256 := hx b0 (by simp)
      have h1 : b1 < 256 := hx b1 (by simp)
      have h2 : b2 < 256 := hx b2 (by simp)
      have hrest : isBytes rest := fun b hb => hx b (by simp [hb])
      have e1 := encSext_ne_cr (b0 / 4) (by omega)
      have e2 := encSext_ne_lf (b0 / 4) (by omega)
      have e3 := encSext_ne_cr (b0 % 4 * 16 + b1 / 16) (by omega)
      have e4 := encSext_ne_lf (b0 % 4 * 16 + b1 / 16) (by omega)
      have e5 := encSext_ne_cr (b1 % 16 * 4 + b2 / 64) (by omega)
      have e6 := encSext_ne_lf (b1 % 16 * 4 + b2 / 64) (by omega)
      have e7 := encSext_ne_cr (b2 % 64) (by omega)
      have e8 := encSext_ne_lf (b2 % 64) (by omega)
      intro a ha
      simp only [b64Encode, List.mem_cons] at ha
      rcases ha with rfl | rfl | rfl | rfl | ha
      · omega
      · omega
      · omega
      · omega
      · exact ih hrest a ha

theorem filter_b64Encode (x : List Nat) (hx : isBytes x) :
    (b64Encode x).filter (fun m => m ≠ 13 && m ≠ 10) = b64Encode x := by
  rw [List.filter_eq_self]
  intro a ha
  have h := b64Encode_not_crlf x hx a ha
  simp [h.1, h.2]

theorem b64DecodeGroups_encode (x : List Nat) (hx : isBytes x) :
    b64DecodeGroups (b64Encode x) = some x := by
  induction x using b64Encode.induct with
  | case1 => rfl
  | case2 b0 =>
      have h0 : b0 < 256 := hx b0 (by simp)
      have d0 := decSext_encSext (b0 / 4) (by omega)
      have d1 := decSext_encSext (b0 % 4 * 16) (by omega)
      simp [b64Encode, b64DecodeGroups, d0, d1]
      omega
  | case3 b0 b1 =>
      have h0 : b0 < 256 := hx b0 (by simp)
      have h1 : b1 < 256 := hx b1 (by simp)
      have d0 := decSext_encSext (b0 / 4) (by omega)
      have d1 := decSext_encSext (b0 % 4 * 16 + b1 / 16) (by omega)
      have d2 := decSext_encSext (b1 % 16 * 4) (by omega)
      have p2 := encSext_ne_pad (b1 % 16 * 4) (by omega)
      simp [b64Encode, b64DecodeGroups, d0, d1, d2, p2]
      omega
  | case4 b0 b1 b2 rest ih =>
      have h0 : b0 < 256 := hx b0 (by simp)
      have h1 : b1 < 256 := hx b1 (by simp)
      have h2 : b2 < 256 := hx b2 (by simp)
      have hrest : isBytes rest := fun b hb => hx b (by simp [hb])
      have d0 := decSext_encSext (b0 / 4) (by omega)
      have d1 := decSext_encSext (b0 % 4 * 16 + b1 / 16) (by omega)
      have d2 := decSext_encSext (b1 % 16 * 4 + b2 / 64) (by omega)
      have d3 := decSext_encSext (b2 % 64) (by omega)
      have p2 := encSext_ne_pad (b1 % 16 * 4 + b2 / 64) (by omega)
      have p3 := encSext_ne_pad (b2 % 64) (by omega)
      simp [b64Encode, b64DecodeGroups, d0, d1, d2, d3, p2, p3, ih hrest]
      omega

theorem b64_roundtrip (x : List Nat) (hx : isBytes x) :
    b64Decode (b64Encode x) = some x := by
  unfold b64Decode
  rw [filter_b64Encode x hx, b64DecodeGroups_encode x hx]

theorem b64DecodeGroups_length :
    ∀ (l bs : List Nat), b64DecodeGroups l = some bs →
      4 * bs.length ≤ 3 * l.length
  | [], bs, h => by
      simp only [b64DecodeGroups, Option.some.injEq] at h
      subst h; simp
  | [m0], bs, h => by simp [b64DecodeGroups] at h
  | [m0, m1], bs, h => by simp [b64DecodeGroups] at h
  | [m0, m1, m2], bs, h => by simp [b64DecodeGroups] at h
  | m0 :: m1 :: m2 :: m3 :: rest, bs, h => by
      have IH := b64DecodeGroups_length rest
      simp only [b64DecodeGroups] at h
      rcases ha : b64DecSext m0 with _ | a
      · simp only [ha] at h
        cases h
      · rcases hb : b64DecSext m1 with _ | b
        · simp only [ha, hb] at h
          cases h
        · simp only [ha, hb] at h
          by_cases hm2 : m2 = 61
          · rw [if_pos hm2] at h
            by_cases hm3 : m3 = 61 ∧ rest = []
            · rw [if_pos hm3] at h
              injection h with h
              subst h
              obtain ⟨h3, hrest⟩ := hm3
              subst hrest
              simp only [List.length_cons, List.length_nil]
              omega
            · rw [if_neg hm3] at h
              cases h
          · rw [if_neg hm2] at h
            rcases hc : b64DecSext m2 with _ | c
            · simp only [hc] at h
              cases h
            · simp only [hc] at h
              by_cases hm3 : m3 = 61
              · rw [if_pos hm3] at h
                by_cases hr : rest = []
                · rw [if_pos hr] at h
                  injection h with h
                  subst h
                  subst hr
                  simp only [List.length_cons, List.length_nil]
                  omega
                · rw [if_neg hr] at h
                  cases h
              · rw [if_neg hm3] at h
                rcases hd : b64DecSext m3 with _ | d
                · simp only [hd] at h
                  cases h
                · simp only [hd] at h
                  rcases hg : b64DecodeGroups rest with _ | bs0
                  · simp only [hg] at h
                    cases h
                  · simp only [hg] at h
                    injection h with h
                    subst h
                    have h4 := IH bs0 hg
                    simp only [List.length_cons]
                    omega

theorem b64Decode_length (l bs : List Nat) (h : b64Decode l = some bs) :
    4 * bs.length ≤ 3 * l.length := by
  unfold b64Decode at h
  have h1 := b64DecodeGroups_length _ _ h
  have h2 := List.length_filter_le (fun m => m ≠ 13 && m ≠ 10) l
  omega

theorem toyGCM_spec : GCMSpec toyGCM := by
  constructor
  · intro key nonce pt _
    have hne : pt ++ [(pt.sum + key.sum + nonce.sum) % 256] ≠ [] := by simp
    simp [toyGCM, hne, List.getLast?_concat, List.dropLast_concat]
  · intro key nonce pt hpt
    intro b hb
    simp only [toyGCM, List.mem_append, List.mem_singleton] at hb
    rcases hb with hb | hb
    · exact hpt b hb
    · subst hb
      exact Nat.mod_lt _ (by omega)

/-! ### Helper lemmas. -/

theorem backendGet_put (st : Backend) (name : String) (v : EncryptedWallet) :
    backendGet (backendPut st name v) name = some v := by
  induction st with
  | nil => simp [backendPut, backendGet]
  | cons p rest ih =>
      obtain ⟨k, w⟩ := p
      by_cases hk : k = name
      · simp [backendPut, hk, backendGet]
      · simp [backendPut, hk, backendGet, ih]

theorem validateWalletName_ne_empty (name : String)
    (h : validateWalletName name = .ok ()) : name ≠ "" := by
  intro hcon
  subst hcon
  simp [validateWalletName] at h

/-! ### Claim theorems. -/

/-- C8: for every non-negative offset and limit, `StorageService.ListWallets`
returns the empty list (not an error) whenever `offset` is at least the total
number of stored names; with `limit ≤ 0` it returns all names from `offset`
to the end; otherwise the names from `offset` up to
`min (offset + limit) total`, in persisted key order. -/

theorem C8_list_pagination (st : Backend) (offset limit : Int)
    (ho : 0 ≤ offset) (hl : 0 ≤ limit) :
    (offset ≥ (backendList st).length →
      StorageService.ListWallets st offset limit = .ok [])
    ∧ (offset < (backendList st).length → limit ≤ 0 →
      StorageService.ListWallets st offset limit =
        .ok ((backendList st).drop offset.toNat))
    ∧ (offset < (backendList st).length → 0 < limit →
      StorageService.ListWallets st offset limit =
        .ok (((backendList st).take
          (min (offset + limit).toNat (backendList st).length)).drop
            offset.toNat)) := by
  refine ⟨?_, ?_, ?_⟩
  · intro h1
    simp only [StorageService.ListWallets]
    rw [if_pos h1]
  · intro h1 h2
    simp only [StorageService.ListWallets]
    rw [if_neg (by omega), if_pos (Or.inl h2), if_neg (by omega)]
    simp
  · intro h1 h2
    simp only [StorageService.ListWallets]
    rw [if_neg (by omega)]
    by_cases hc : offset + limit > ((backendList st).length : Int)
    · rw [if_pos (Or.inr hc), if_neg (by omega)]
      rw [Nat.min_eq_right (by omega)]
      simp
    · rw [if_neg (by omega), if_neg (by omega)]
      rw [Nat.min_eq_left (by omega)]

/-- C9 counterexample: `WalletService.ListWallets` called with a negative
`limit` does not fail with an invalid-input error; it delegates to the store,
which treats `limit ≤ 0` as "no limit" and succeeds. -/

theorem C9_counterexample :
    WalletService.ListWallets ([] : Backend) 0 (-1) = .ok [] ∧
    StorageService.ListWallets ([] : Backend) 0 (-1) = .ok [] := by
  constructor <;> decide

/-- C9 (amended): negative `offset`/`limit` are rejected with an
invalid-input error by the Request Router's list handler
(`handleWalletList`), which returns without invoking the Lifecycle Manager
(the response is a fixed value, independent of the stored state);
`WalletService.ListWallets` itself performs no validation and delegates
unconditionally to the store's list. -/

theorem C9_router_validates_list (st : Backend) (offset limit : Int) :
    (offset < 0 →
      handleWalletList st offset limit =
        .resp (errorResponse "offset must be non-negative"))
    ∧ (0 ≤ offset → limit < 0 →
      handleWalletList st offset limit =
        .resp (errorResponse "limit must be non-negative"))
    ∧ WalletService.ListWallets st offset limit =
        (match StorageService.ListWallets st offset limit with
         | .error _ => .error (.wrapped "failed to list wallets")
         | .ok ks => .ok ks) := by
  refine ⟨?_, ?_, rfl⟩
  · intro h
    simp only [handleWalletList]
    rw [if_pos h]
  · intro h1 h2
    simp only [handleWalletList]
    rw [if_neg (by omega), if_pos h2]

/-- C5: storing under an existing name fails with `walletExists` and leaves
the backend state unchanged (no write); otherwise the encrypted record is
persisted as a single `Put`; consequently a second `CreateWallet` under the
same name (whose provider step succeeds) fails with `walletExists` and
leaves the state unchanged. -/

theorem C5_store_duplicate (g : AEAD) (key : List Nat) (st : Backend)
    (w : Wallet) (n1 n2 : List Nat) :
    (backendGet st w.name ≠ none →
      StorageService.StoreWallet g key st w n1 n2 =
        (.error .walletExists, st))
    ∧ (∀ enc, backendGet st w.name = none →
        StorageService.encryptWallet g key w n1 n2 = .ok enc →
        StorageService.StoreWallet g key st w n1 n2 =
          (.ok (), backendPut st w.name enc))
    ∧ (∀ (tw : TrustWalletCore) (name : String) (ct1 ct2 : Nat)
        (mn1 mn2 p3 p4 : List Nat) (now1 now2 : Nat) (w1 : Wallet)
        (st1 : Backend) (keys2 : WalletKeys),
        WalletService.CreateWallet tw g key st name ct1 mn1 n1 n2 now1 =
          (.ok w1, st1) →
        createOrImportKeys tw mn2 ct2 = .ok keys2 →
        WalletService.CreateWallet tw g key st1 name ct2 mn2 p3 p4 now2 =
          (.error .walletExists, st1)) := by
  refine ⟨?_, ?_, ?_⟩
  · intro hsome
    cases hget : backendGet st w.name with
    | none => exact absurd hget hsome
    | some e0 => simp [StorageService.StoreWallet, hget]
  · intro enc hnone henc
    simp [StorageService.StoreWallet, hnone, henc]
  · intro tw name ct1 ct2 mn1 mn2 p3 p4 now1 now2 w1 st1 keys2 h1 h2
    by_cases hn : name = ""
    · subst hn
      simp [WalletService.CreateWallet] at h1
    · simp only [WalletService.CreateWallet, if_neg hn] at h1
      cases hk : createOrImportKeys tw mn1 ct1 with
      | error e => rw [hk] at h1; simp at h1
      | ok keys1 =>
        rw [hk] at h1
        have hname1 : (mkServiceWallet name ct1 keys1 now1).name = name := rfl
        simp only [StorageService.StoreWallet, hname1] at h1
        cases hget : backendGet st name with
        | some e0 => simp [hget] at h1
        | none =>
          rw [hget] at h1
          cases henc : StorageService.encryptWallet g key
              (mkServiceWallet name ct1 keys1 now1) n1 n2 with
          | error e => rw [henc] at h1; cases e <;> simp at h1
          | ok enc =>
            rw [henc] at h1
            simp only at h1
            injection h1 with hA hB
            subst hB
            have hname2 : (mkServiceWallet name ct2 keys2 now2).name = name :=
              rfl
            simp only [WalletService.CreateWallet, if_neg hn, h2]
            simp only [StorageService.StoreWallet, hname2, backendGet_put]

theorem backendGet_agree :
    ∀ (st1 st2 : Backend) (name : String), backendAgree st1 st2 = true →
      (backendGet st1 name = none ∧ backendGet st2 name = none) ∨
      (∃ e1 e2, backendGet st1 name = some e1 ∧
        backendGet st2 name = some e2 ∧ metaAgree e1 e2 = true)
  | [], [], name, _ => by simp [backendGet]
  | [], (k2, e2) :: r2, name, h => by simp [backendAgree] at h
  | (k1, e1) :: r1, [], name, h => by simp [backendAgree] at h
  | (k1, e1) :: r1, (k2, e2) :: r2, name, h => by
      simp only [backendAgree, Bool.and_eq_true, decide_eq_true_eq] at h
      obtain ⟨⟨hk, hm⟩, hr⟩ := h
      subst hk
      by_cases hname : k1 = name
      · right
        exact ⟨e1, e2, by simp [backendGet, hname], by simp [backendGet, hname],
          hm⟩
      · have ih := backendGet_agree r1 r2 name hr
        simp only [backendGet, if_neg hname]
        exact ih

/-- C6: `StorageService.GetWalletMetadata` never invokes decryption: its
result is identical for any two stored states that agree on everything but
the encrypted mnemonic/private-key blobs and for any two encryption keys (or
AEAD instances); `WalletService.GetWallet` delegates to it, mapping only the
not-found error, so it enjoys the same independence. -/

theorem C6_metadata_no_decrypt (g1 g2 : AEAD) (key1 key2 : List Nat)
    (st1 st2 : Backend) (name : String)
    (h : backendAgree st1 st2 = true) :
    StorageService.GetWalletMetadata g1 key1 st1 name =
      StorageService.GetWalletMetadata g2 key2 st2 name
    ∧ WalletService.GetWallet g1 key1 st1 name =
      WalletService.GetWallet g2 key2 st2 name
    ∧ WalletService.GetWallet g1 key1 st1 name =
        (if name = "" then .error .invalidWalletName
         else
           match StorageService.GetWalletMetadata g1 key1 st1 name with
           | .error .walletNotFound => .error .walletNotFound
           | .error _ => .error (.wrapped "failed to retrieve wallet")
           | .ok w => .ok w) := by
  have hmeta : StorageService.GetWalletMetadata g1 key1 st1 name =
      StorageService.GetWalletMetadata g2 key2 st2 name := by
    by_cases hn : name = ""
    · simp [StorageService.GetWalletMetadata, hn]
    · rcases backendGet_agree st1 st2 name h with ⟨h1, h2⟩ |
        ⟨e1, e2, h1, h2, hm⟩
      · simp [StorageService.GetWalletMetadata, hn, h1, h2]
      · simp only [metaAgree, Bool.and_eq_true, decide_eq_true_eq] at hm
        obtain ⟨⟨⟨⟨ha, hb⟩, hc⟩, hd⟩, he⟩ := hm
        simp [StorageService.GetWalletMetadata, hn, h1, h2, ha, hb, hc, hd,
          he]
    
  refine ⟨hmeta, ?_, rfl⟩
  simp only [WalletService.GetWallet, hmeta]

/-- C4: with a 256-bit key and a fresh nonce of the AEAD's nonce size,
`StorageService.encrypt` succeeds on every byte string (the empty one
included) and `StorageService.decrypt` recovers exactly the plaintext: the
nonce is prefixed to the ciphertext by `encrypt` and stripped by
`decrypt`. -/

theorem C4_encrypt_decrypt_roundtrip (g : AEAD) (hg : GCMSpec g)
    (key nonce x : List Nat) (hkey : key.length = 32)
    (hnonce : nonce.length = g.nonceSize) (hnb : isBytes nonce)
    (hx : isBytes x) :
    ∃ ct, StorageService.encrypt g key nonce x = .ok ct ∧
          StorageService.decrypt g key ct = .ok x := by
  have hks : aesKeySizeOk key = true := by
    simp [aesKeySizeOk, hkey]
  refine ⟨b64Encode (nonce ++ g.sealA key nonce x), ?_, ?_⟩
  · simp [StorageService.encrypt, hks]
  · have hbytes : isBytes (nonce ++ g.sealA key nonce x) := by
      intro b hb
      rcases List.mem_append.mp hb with hb | hb
      · exact hnb b hb
      · exact hg.sealBytes key nonce x hx b hb
    have hdec := b64_roundtrip _ hbytes
    simp only [StorageService.decrypt, hdec, hks, if_true]
    have hlen : ¬ (nonce ++ g.sealA key nonce x).length < g.nonceSize := by
      simp [List.length_append, hnonce]
    rw [if_neg hlen]
    have htake : (nonce ++ g.sealA key nonce x).take g.nonceSize = nonce := by
      rw [← hnonce, List.take_left]
    have hdrop : (nonce ++ g.sealA key nonce x).drop g.nonceSize =
        g.sealA key nonce x := by
      rw [← hnonce, List.drop_left]
    rw [htake, hdrop, hg.round key nonce x hnonce]

/-- C2 counterexample: for the empty name and the empty store, no record is
stored, yet `StorageService.GetWallet` does not fail with `walletNotFound`
(it rejects the empty name with a distinct error first), refuting the
claimed "exactly when" for every name. -/

theorem C2_counterexample :
    backendGet ([] : Backend) "" = none ∧
    StorageService.GetWallet toyGCM exKey [] "" =
      .error (.other "wallet name cannot be empty") ∧
    StorageService.GetWallet toyGCM exKey [] "" ≠
      .error .walletNotFound := by
  refine ⟨rfl, rfl, by decide⟩

/-- C2 (amended, restricted to non-empty names; the empty name is rejected
with a distinct invalid-name error before the lookup): `getFull` fails with
`walletNotFound` exactly when no record with that name is stored; if a
record exists and AES-GCM authentication fails on either sensitive blob
(`openA` returns `none`, e.g. after a byte flip) — or the blob is otherwise
undecryptable — the call fails with a `decryptionFailed` error, which is
distinct from `walletNotFound`, and never returns a plaintext; any blob
whose decoded buffer is shorter than the nonce size fails `decrypt`. -/

theorem C2_getFull_errors (g : AEAD) (key : List Nat) (st : Backend)
    (name : String) (hname : name ≠ "") :
    (StorageService.GetWallet g key st name = .error .walletNotFound ↔
      backendGet st name = none)
    ∧ (∀ enc, backendGet st name = some enc →
        ((∃ m, StorageService.decrypt g key enc.mnemonicEncrypted =
            .error m) ∨
         (∃ m, StorageService.decrypt g key enc.privateKeyEncrypted =
            .error m)) →
        ∃ msg, StorageService.GetWallet g key st name =
            .error (.decryptionFailed msg) ∧
          StorageErr.decryptionFailed msg ≠ .walletNotFound ∧
          ∀ w, StorageService.GetWallet g key st name ≠ .ok w)
    ∧ (∀ ct data, b64Decode ct = some data → data.length < g.nonceSize →
        ∃ msg, StorageService.decrypt g key ct = .error msg) := by
  refine ⟨?_, ?_, ?_⟩
  · constructor
    · intro h
      cases hget : backendGet st name with
      | none => rfl
      | some enc =>
        simp only [StorageService.GetWallet, if_neg hname, hget] at h
        simp only [StorageService.decryptWallet] at h
        cases hm : StorageService.decrypt g key enc.mnemonicEncrypted with
        | error m => rw [hm] at h; simp at h
        | ok mn =>
          rw [hm] at h
          cases hp : StorageService.decrypt g key enc.privateKeyEncrypted with
          | error m => rw [hp] at h; simp at h
          | ok pk => rw [hp] at h; simp at h
    · intro h
      simp [StorageService.GetWallet, if_neg hname, h]
  · intro enc hget hfail
    simp only [StorageService.GetWallet, if_neg hname, hget,
      StorageService.decryptWallet]
    cases hm : StorageService.decrypt g key enc.mnemonicEncrypted with
    | error m =>
      exact ⟨"failed to decrypt mnemonic", by simp, by simp, by simp⟩
    | ok mn =>
      cases hp : StorageService.decrypt g key enc.privateKeyEncrypted with
      | error m =>
        exact ⟨"failed to decrypt private key", by simp, by simp, by simp⟩
      | ok pk =>
        exfalso
        rcases hfail with ⟨m, hm2⟩ | ⟨m, hp2⟩
        · rw [hm] at hm2; cases hm2
        · rw [hp] at hp2; cases hp2
  · intro ct data hdec hlen
    simp only [StorageService.decrypt, hdec]
    by_cases hks : aesKeySizeOk key = true
    · rw [if_pos hks, if_pos hlen]
      exact ⟨"ciphertext too short", rfl⟩
    · rw [if_neg hks]
      exact ⟨"crypto or aes or invalid key size", rfl⟩

/-- C1: whenever the wallet record is successfully retrieved and decrypted
inside `sign` (`service.SignTransaction`) or `deriveAddress`
(`service.GetAddress`), the record's state when the call returns — whether
the Signing Provider succeeded or failed — has an all-zero private-key
buffer (of unchanged length) and an empty mnemonic. -/

theorem C1_sign_zeroes_secrets (tw : TrustWalletCore) (g : AEAD)
    (key : List Nat) (st : Backend) (name : String) (txData : List Nat)
    (coinType : Nat) (path : String) (w : Wallet)
    (hw : StorageService.GetWallet g key st name = .ok w)
    (htx : txData ≠ []) :
    ∃ u1 u2,
      (WalletService.SignTransaction tw g key st name txData).2 = some u1 ∧
      u1.privateKey.all (fun b => b = 0) = true ∧ u1.mnemonic = [] ∧
      u1.privateKey.length = w.privateKey.length ∧
      (WalletService.GetAddress tw g key st name coinType path).2 = some u2 ∧
      u2.privateKey.all (fun b => b = 0) = true ∧ u2.mnemonic = [] ∧
      u2.privateKey.length = w.privateKey.length := by
  have hname : name ≠ "" := by
    intro h
    subst h
    simp [StorageService.GetWallet] at hw
  have htxlen : ¬ txData.length = 0 := by
    simpa using htx
  refine ⟨{ w with privateKey := w.privateKey.map (fun _ => 0), mnemonic := [] }, { w with mnemonic := [], privateKey := w.privateKey.map (fun _ => 0) }, ?_, ?_, ?_, ?_, ?_, ?_, ?_, ?_⟩
  · simp only [WalletService.SignTransaction, if_neg hname, if_neg htxlen,
      hw]
    cases hs : tw.signTransaction w.privateKey w.coinType txData with
    | error e => cases e <;> simp
    | ok s => simp
  · simp [List.all_eq_true]
  · rfl
  · simp
  · simp only [WalletService.GetAddress, if_neg hname, hw]
    cases hs : tw.deriveAddress w.mnemonic coinType path with
    | error e => cases e <;> simp
    | ok s => simp
  · simp [List.all_eq_true]
  · rfl
  · simp

/-- C7: a sign request (with a router-valid name) whose `tx_data` is not
valid base64, or whose base64-encoded string exceeds the 1 MB cap, or whose
decoded payload is empty, is answered with the corresponding invalid-input
error response; the response is a fixed value — the same for every stored
state, key and provider — so the wallet record is never read or decrypted
and the Signing Provider is never invoked.  Empty transaction bytes are
likewise rejected by the Lifecycle Manager (`service.SignTransaction`)
before any retrieval, for every state. -/

theorem C7_sign_input_validation (tw : TrustWalletCore) (g : AEAD)
    (key : List Nat) (st : Backend) (name : String) (txEnc : List Nat)
    (hname : validateWalletName name = .ok ()) :
    (txEnc ≠ [] → txEnc.length ≤ 1024 * 1024 → b64Decode txEnc = none →
      handleWalletSign tw g key st name txEnc =
        .resp (errorResponse "invalid tx_data: must be base64-encoded"))
    ∧ (txEnc.length > 1024 * 1024 →
      handleWalletSign tw g key st name txEnc =
        .resp (errorResponse "transaction data exceeds maximum size of 1MB"))
    ∧ (txEnc ≠ [] → txEnc.length ≤ 1024 * 1024 →
      b64Decode txEnc = some [] →
      handleWalletSign tw g key st name txEnc =
        .resp (errorResponse "transaction data cannot be empty"))
    ∧ (∀ (g2 : AEAD) (key2 : List Nat) (st2 : Backend),
      WalletService.SignTransaction tw g2 key2 st2 name [] =
        (.error .invalidTxData, none)) := by
  have hne := validateWalletName_ne_empty name hname
  refine ⟨?_, ?_, ?_, ?_⟩
  · intro h1 h2 h3
    simp only [handleWalletSign, hname]
    rw [if_neg h1, if_neg (by omega)]
    simp only [h3]
  · intro h1
    have h0 : txEnc ≠ [] := by
      intro h
      subst h
      simp at h1
    simp only [handleWalletSign, hname]
    rw [if_neg h0, if_pos h1]
  · intro h1 h2 h3
    simp only [handleWalletSign, hname]
    rw [if_neg h1, if_neg (by omega)]
    simp only [h3]
    simp
  · intro g2 key2 st2
    simp [WalletService.SignTransaction, hne]

/-- C10: the 1 MiB cap in the sign handler is applied to the base64-encoded
string before decoding, and standard base64 yields at most 3 bytes per 4
input characters, so any payload that reaches the decode stage under the cap
decodes to at most 786432 = 3/4 · 2^20 bytes — a decoded 1 MiB payload is
unreachable. -/

theorem C10_decoded_size_bound :
    (∀ (tw : TrustWalletCore) (g : AEAD) (key : List Nat) (st : Backend)
        (name : String) (txEnc : List Nat),
      validateWalletName name = .ok () → txEnc.length > 1024 * 1024 →
      handleWalletSign tw g key st name txEnc =
        .resp (errorResponse "transaction data exceeds maximum size of 1MB"))
    ∧ (∀ txEnc txData, txEnc.length ≤ 1024 * 1024 →
      b64Decode txEnc = some txData → txData.length ≤ 786432) := by
  constructor
  · intro tw g key st name txEnc hname h1
    have h0 : txEnc ≠ [] := by
      intro h
      subst h
      simp at h1
    simp only [handleWalletSign, hname]
    rw [if_neg h0, if_pos h1]
  · intro txEnc txData h1 h2
    have h3 := b64Decode_length txEnc txData h2
    omega

theorem respNoSensitive_error (msg : String) :
    respNoSensitive (.resp (errorResponse msg)) = true := by
  simp [respNoSensitive, respKeys, errorResponse]

theorem respNoSensitive_handleError (e : SvcErr) :
    respNoSensitive (handleError e) = true := by
  cases e <;> simp [handleError, respNoSensitive, respKeys, errorResponse]

theorem createRespShape_error (msg : String) :
    createRespShape (.resp (errorResponse msg)) = true := by
  simp [createRespShape, errorResponse]

theorem createRespShape_handleError (e : SvcErr) :
    createRespShape (handleError e) = true := by
  cases e <;> simp [handleError, createRespShape, errorResponse]

/-- C3: no operation of the caller-facing interface — create, read, delete,
list, sign, address — ever returns a response (success or error) containing
a `mnemonic` or `private_key` data field, for every input, stored state and
provider behaviour; and a create response carries only an error shape or
exactly the keys name, coin_type, address, public_key, created_at. -/

theorem C3_no_secret_fields :
    (∀ tw g key st name ctRaw mn n1 n2 now, respNoSensitive
      (handleWalletCreate tw g key st name ctRaw mn n1 n2 now).1 = true)
    ∧ (∀ g key st name,
      respNoSensitive (handleWalletRead g key st name) = true)
    ∧ (∀ st name, respNoSensitive (handleWalletDelete st name).1 = true)
    ∧ (∀ st offset limit,
      respNoSensitive (handleWalletList st offset limit) = true)
    ∧ (∀ tw g key st name txEnc,
      respNoSensitive (handleWalletSign tw g key st name txEnc) = true)
    ∧ (∀ tw g key st name coinStr path, respNoSensitive
      (handleWalletAddress tw g key st name coinStr path) = true)
    ∧ (∀ tw g key st name ctRaw mn n1 n2 now, createRespShape
      (handleWalletCreate tw g key st name ctRaw mn n1 n2 now).1 = true) := by
  refine ⟨?_, ?_, ?_, ?_, ?_, ?_, ?_⟩
  · intro tw g key st name ctRaw mn n1 n2 now
    cases hv : validateWalletName name with
    | error msg => simp [handleWalletCreate, hv, respNoSensitive_error]
    | ok u =>
      cases u
      cases ctRaw with
      | none => simp [handleWalletCreate, hv, respNoSensitive_error]
      | some raw =>
        cases hct : validateCoinType ((raw % 4294967296).toNat) with
        | error msg =>
            simp [handleWalletCreate, hv, hct, respNoSensitive_error]
        | ok u2 =>
          cases u2
          cases hcw : WalletService.CreateWallet tw g key st name
              ((raw % 4294967296).toNat) mn n1 n2 now with
          | mk res st' =>
            cases res with
            | error e =>
                simp [handleWalletCreate, hv, hct, hcw,
                  respNoSensitive_handleError]
            | ok w =>
                simp [handleWalletCreate, hv, hct, hcw, respNoSensitive,
                  respKeys]
  · intro g key st name
    cases hv : validateWalletName name with
    | error msg => simp [handleWalletRead, hv, respNoSensitive_error]
    | ok u =>
      cases u
      cases hr : WalletService.GetWallet g key st name with
      | error e =>
          simp [handleWalletRead, hv, hr, respNoSensitive_handleError]
      | ok w => simp [handleWalletRead, hv, hr, respNoSensitive, respKeys]
  · intro st name
    cases hv : validateWalletName name with
    | error msg => simp [handleWalletDelete, hv, respNoSensitive_error]
    | ok u =>
      cases u
      cases hd : WalletService.DeleteWallet st name with
      | mk res st' =>
        cases res with
        | error e =>
            simp [handleWalletDelete, hv, hd, respNoSensitive_handleError]
        | ok u2 =>
            simp [handleWalletDelete, hv, hd, respNoSensitive, respKeys]
  · intro st offset limit
    by_cases ho : offset < 0
    · simp [handleWalletList, ho, respNoSensitive_error]
    · by_cases hl : limit < 0
      · simp [handleWalletList, ho, hl, respNoSensitive_error]
      · cases hres : WalletService.ListWallets st offset limit with
        | error e =>
            simp [handleWalletList, ho, hl, hres,
              respNoSensitive_handleError]
        | ok ks =>
            simp [handleWalletList, ho, hl, hres, respNoSensitive, respKeys]
  · intro tw g key st name txEnc
    cases hv : validateWalletName name with
    | error msg => simp [handleWalletSign, hv, respNoSensitive_error]
    | ok u =>
      cases u
      by_cases h0 : txEnc = []
      · simp [handleWalletSign, hv, h0, respNoSensitive_error]
      · by_cases h1 : txEnc.length > 1024 * 1024
        · simp [handleWalletSign, hv, h0, h1, respNoSensitive_error]
        · cases h2 : b64Decode txEnc with
          | none => simp [handleWalletSign, hv, h0, h1, h2,
              respNoSensitive_error]
          | some txData =>
            by_cases h3 : txData.length = 0
            · simp [handleWalletSign, hv, h0, h1, h2, h3,
                respNoSensitive_error]
            · cases h4 : (WalletService.SignTransaction tw g key st name
                  txData).1 with
              | error e =>
                  simp [handleWalletSign, hv, h0, h1, h2, h3, h4,
                    respNoSensitive_handleError]
              | ok s =>
                  simp [handleWalletSign, hv, h0, h1, h2, h3, h4,
                    respNoSensitive, respKeys]
  · intro tw g key st name coinStr path
    cases hv : validateWalletName name with
    | error msg => simp [handleWalletAddress, hv, respNoSensitive_error]
    | ok u =>
      cases u
      by_cases h0 : coinStr.data = []
      · simp [handleWalletAddress, hv, h0, respNoSensitive_error]
      · cases h1 : parseUint32 coinStr with
        | none => simp [handleWalletAddress, hv, h0, h1,
            respNoSensitive_error]
        | some coinType =>
          cases h2 : validateCoinType coinType with
          | error msg => simp [handleWalletAddress, hv, h0, h1, h2,
              respNoSensitive_error]
          | ok u2 =>
            cases u2
            cases h3 : (if path.data ≠ [] then validateDerivationPath path
                else .ok ()) with
            | error msg => simp [handleWalletAddress, hv, h0, h1, h2, h3,
                respNoSensitive_error]
            | ok u3 =>
              cases u3
              cases h4 : (WalletService.GetAddress tw g key st name coinType
                  path).1 with
              | error e => simp [handleWalletAddress, hv, h0, h1, h2, h3,
                  h4, respNoSensitive_handleError]
              | ok addr => simp [handleWalletAddress, hv, h0, h1, h2, h3,
                  h4, respNoSensitive, respKeys]
  · intro tw g key st name ctRaw mn n1 n2 now
    cases hv : validateWalletName name with
    | error msg => simp [handleWalletCreate, hv, createRespShape_error]
    | ok u =>
      cases u
      cases ctRaw with
      | none => simp [handleWalletCreate, hv, createRespShape_error]
      | some raw =>
        cases hct : validateCoinType ((raw % 4294967296).toNat) with
        | error msg =>
            simp [handleWalletCreate, hv, hct, createRespShape_error]
        | ok u2 =>
          cases u2
          cases hcw : WalletService.CreateWallet tw g key st name
              ((raw % 4294967296).toNat) mn n1 n2 now with
          | mk res st' =>
            cases res with
            | error e =>
                simp [handleWalletCreate, hv, hct, hcw,
                  createRespShape_handleError]
            | ok w =>
                simp [handleWalletCreate, hv, hct, hcw, createRespShape]

/-- C1 witness: on a concrete store whose record decrypts, both `sign` and
`deriveAddress` leave the retrieved record with a zeroed private-key buffer
and an empty mnemonic. -/

theorem C1_sign_zeroes_secrets_witness :
    StorageService.GetWallet toyGCM exKey exStore "w" = .ok exWallet ∧
    (∃ u1 u2,
      (WalletService.SignTransaction exTW toyGCM exKey exStore "w" [5]).2 =
        some u1 ∧
      u1.privateKey.all (fun b => b = 0) = true ∧ u1.mnemonic = [] ∧
      u1.privateKey.length = exWallet.privateKey.length ∧
      (WalletService.GetAddress exTW toyGCM exKey exStore "w" 60 "").2 =
        some u2 ∧
      u2.privateKey.all (fun b => b = 0) = true ∧ u2.mnemonic = [] ∧
      u2.privateKey.length = exWallet.privateKey.length) :=
  ⟨by decide,
   C1_sign_zeroes_secrets exTW toyGCM exKey exStore "w" [5] 60 "" exWallet
     (by decide) (by decide)⟩

/-- C2 witness: the amended theorem instantiated at a concrete non-empty
name and store. -/

theorem C2_getFull_errors_witness :
    ("w" : String) ≠ "" ∧
    ((StorageService.GetWallet toyGCM exKey exStore "w" =
        .error .walletNotFound ↔ backendGet exStore "w" = none)
     ∧ (∀ enc, backendGet exStore "w" = some enc →
        ((∃ m, StorageService.decrypt toyGCM exKey enc.mnemonicEncrypted =
            .error m) ∨
         (∃ m, StorageService.decrypt toyGCM exKey enc.privateKeyEncrypted =
            .error m)) →
        ∃ msg, StorageService.GetWallet toyGCM exKey exStore "w" =
            .error (.decryptionFailed msg) ∧
          StorageErr.decryptionFailed msg ≠ .walletNotFound ∧
          ∀ w, StorageService.GetWallet toyGCM exKey exStore "w" ≠ .ok w)
     ∧ (∀ ct data, b64Decode ct = some data →
        data.length < toyGCM.nonceSize →
        ∃ msg, StorageService.decrypt toyGCM exKey ct = .error msg)) :=
  ⟨by decide, C2_getFull_errors toyGCM exKey exStore "w" (by decide)⟩

/-- C4 witness: a concrete roundtrip through the toy AEAD, 32-byte key and
12-byte nonce. -/

theorem C4_encrypt_decrypt_roundtrip_witness :
    ∃ ct, StorageService.encrypt toyGCM exKey exNonce [0, 255] = .ok ct ∧
          StorageService.decrypt toyGCM exKey ct = .ok [0, 255] :=
  C4_encrypt_decrypt_roundtrip toyGCM toyGCM_spec exKey exNonce [0, 255]
    (by decide) (by decide) (by decide) (by decide)

/-- C5 witness: storing a record under the already-present name fails with
`walletExists` and leaves the concrete store untouched. -/

theorem C5_store_duplicate_witness :
    backendGet exStore exWallet.name ≠ none ∧
    StorageService.StoreWallet toyGCM exKey exStore exWallet exNonce
      exNonce = (.error .walletExists, exStore) :=
  ⟨by decide,
   (C5_store_duplicate toyGCM exKey exStore exWallet exNonce exNonce).1
     (by decide)⟩

/-- C6 witness: two concrete stores that differ only in the encrypted blobs,
read with two different keys, give identical metadata and service reads. -/

theorem C6_metadata_no_decrypt_witness :
    backendAgree exStore exStore2 = true ∧
    (StorageService.GetWalletMetadata toyGCM exKey exStore "w" =
       StorageService.GetWalletMetadata toyGCM [] exStore2 "w"
     ∧ WalletService.GetWallet toyGCM exKey exStore "w" =
       WalletService.GetWallet toyGCM [] exStore2 "w"
     ∧ WalletService.GetWallet toyGCM exKey exStore "w" =
        (if ("w" : String) = "" then .error .invalidWalletName
         else
           match StorageService.GetWalletMetadata toyGCM exKey exStore "w"
             with
           | .error .walletNotFound => .error .walletNotFound
           | .error _ => .error (.wrapped "failed to retrieve wallet")
           | .ok w => .ok w)) :=
  ⟨by decide,
   C6_metadata_no_decrypt toyGCM toyGCM exKey [] exStore exStore2 "w"
     (by decide)⟩

/-- C7 witness: a non-base64 `tx_data` is rejected with the fixed response,
and empty transaction bytes are rejected by the service on the concrete
store. -/

theorem C7_sign_input_validation_witness :
    validateWalletName "w" = .ok () ∧ ([33] : List Nat) ≠ [] ∧
    ([33] : List Nat).length ≤ 1024 * 1024 ∧ b64Decode [33] = none ∧
    handleWalletSign exTW toyGCM exKey exStore "w" [33] =
      .resp (errorResponse "invalid tx_data: must be base64-encoded") ∧
    WalletService.SignTransaction exTW toyGCM exKey exStore "w" [] =
      (.error .invalidTxData, none) :=
  ⟨by decide, by decide, by decide, by decide,
   (C7_sign_input_validation exTW toyGCM exKey exStore "w" [33]
     (by decide)).1 (by decide) (by decide) (by decide),
   (C7_sign_input_validation exTW toyGCM exKey exStore "w" [33]
     (by decide)).2.2.2 toyGCM exKey exStore⟩

/-- C8 witness: a concrete three-wallet store sliced at offset 1 with
limit 1. -/

theorem C8_list_pagination_witness :
    StorageService.ListWallets exStore3 1 1 = .ok ["b"] :=
  ((C8_list_pagination exStore3 1 1 (by decide) (by decide)).2.2 (by decide)
    (by decide)).trans (by decide)

/-- C9 witness: the router's list handler rejects a negative offset on a
concrete store. -/

theorem C9_router_validates_list_witness :
    handleWalletList exStore (-1) 5 =
      .resp (errorResponse "offset must be non-negative") :=
  (C9_router_validates_list exStore (-1) 5).1 (by decide)

/-- C10 witness: an oversize encoded payload is rejected, and a concrete
4-character base64 string decodes to at most 3 bytes. -/

theorem C10_decoded_size_bound_witness :
    validateWalletName "w" = .ok () ∧
    handleWalletSign exTW toyGCM exKey exStore "w"
      (List.replicate 1048577 65) =
      .resp (errorResponse "transaction data exceeds maximum size of 1MB") ∧
    b64Decode [81, 81, 61, 61] = some [65] ∧
    ([65] : List Nat).length ≤ 786432 :=
  ⟨by decide,
   C10_decoded_size_bound.1 exTW toyGCM exKey exStore "w"
     (List.replicate 1048577 65) (by decide)
     (by rw [List.length_replicate]; omega),
   by decide,
   C10_decoded_size_bound.2 [81, 81, 61, 61] [65] (by decide) (by decide)⟩
